import Mathlib

/-!
Shallow embedding of the TeleChat realtime message-delivery core.

The definitions below are translated from the repository source:
  * `src/server/websocket.ts` — the `ChatWebSocketServer` class (session
    registry, chat-message / read-receipt handlers, presence broadcast);
  * `src/unnamed/part_011` — the `MemStorage` in-memory store;
  * `src/server/mongodb-storage.ts` — the MongoDB store (the message-status
    row logic, which is structurally the part the claims depend on);
  * `src/server/routes.ts` — the `POST /api/messages` HTTP handler.

JavaScript `Map`s iterated with `.values()` are modelled as lists in
insertion order; `Date` timestamps are modelled as `Nat`; `null`/absent
fields as `Option`.
-/

namespace TeleChat

/-- A user row (`users` table in `@shared/schema`); only the fields the
delivery core reads are kept. -/
structure User where
  id : Nat
  isOnline : Bool
  lastSeen : Option Nat
  deriving Repr, DecidableEq

/-- A conversation row (`conversations` table). -/
structure Conversation where
  id : Nat
  name : Option String
  isGroup : Bool
  createdAt : Nat
  updatedAt : Nat
  lastMessageId : Option Nat
  deriving Repr, DecidableEq

/-- A participant membership row (`participants` table). -/
structure Participant where
  id : Nat
  userId : Nat
  conversationId : Nat
  isAdmin : Bool
  joinedAt : Nat
  deriving Repr, DecidableEq

/-- A message row (`messages` table). -/
structure Message where
  id : Nat
  conversationId : Nat
  userId : Nat
  content : Option String
  mediaUrl : Option String
  mediaType : Option String
  sentAt : Nat
  deliveredAt : Option Nat
  status : String
  deriving Repr, DecidableEq

/-- A per-recipient read-state row (`message_status` table). -/
structure MessageStatus where
  id : Nat
  messageId : Nat
  userId : Nat
  isRead : Bool
  readAt : Option Nat
  deriving Repr, DecidableEq

/-- `InsertMessage` — the payload accepted by `createMessage`. -/
structure InsertMessage where
  conversationId : Nat
  userId : Nat
  content : Option String
  mediaUrl : Option String
  mediaType : Option String
  deriving Repr, DecidableEq

/-- `InsertMessageStatus` — the payload accepted by `createMessageStatus`.
Callers such as `routes.ts` sometimes pass a `readAt` value; the store
overrides it, which is why the field is carried here. -/
structure InsertMessageStatus where
  messageId : Nat
  userId : Nat
  isRead : Bool
  readAt : Option Nat := none
  deriving Repr, DecidableEq

/-- `InsertConversation` — the payload accepted by `createConversation`. -/
structure InsertConversation where
  name : Option String
  isGroup : Bool
  avatarUrl : Option String
  deriving Repr, DecidableEq

/-- `InsertParticipant` — the payload accepted by `addParticipant`. -/
structure InsertParticipant where
  userId : Nat
  conversationId : Nat
  isAdmin : Bool
  deriving Repr, DecidableEq

/-- The `MemStorage` state (`src/unnamed/part_011`): one `Map` per entity
(modelled as a list in insertion order), one fresh-id counter per entity,
plus the wall clock used for `new Date()`. -/
structure MemStorage where
  usersMap : List User
  conversationsMap : List Conversation
  participantsMap : List Participant
  messagesMap : List Message
  messageStatusMap : List MessageStatus
  userId : Nat
  conversationId : Nat
  participantId : Nat
  messageId : Nat
  messageStatusId : Nat
  now : Nat
  deriving Repr, DecidableEq

namespace MemStorage

/-- `MemStorage.getParticipantsByConversationId`. -/
def getParticipantsByConversationId (st : MemStorage) (conversationId : Nat) :
    List Participant :=
  st.participantsMap.filter (fun p => p.conversationId == conversationId)

/-- `MemStorage.getParticipant`. -/
def getParticipant (st : MemStorage) (userId conversationId : Nat) :
    Option Participant :=
  st.participantsMap.find? (fun p => p.userId == userId && p.conversationId == conversationId)

/-- `MemStorage.getConversation` (`conversationsMap.get(id)`). -/
def getConversation (st : MemStorage) (id : Nat) : Option Conversation :=
  st.conversationsMap.find? (fun c => c.id == id)

/-- `MemStorage.getConversationsByUserId`: the user's participant rows,
mapped through the conversations map, dropping dangling references
(the source's `.map(...get!).filter(Boolean)`). -/
def getConversationsByUserId (st : MemStorage) (userId : Nat) : List Conversation :=
  (st.participantsMap.filter (fun p => p.userId == userId)).filterMap
    (fun p => st.getConversation p.conversationId)

/-- `MemStorage.getMessage`. -/
def getMessage (st : MemStorage) (id : Nat) : Option Message :=
  st.messagesMap.find? (fun m => m.id == id)

/-- `MemStorage.getMessagesByConversationId`: filter by conversation then
sort ascending by `sentAt` (`Array.prototype.sort` is a stable sort,
matched by `List.insertionSort`). -/
def getMessagesByConversationId (st : MemStorage) (conversationId : Nat) :
    List Message :=
  List.insertionSort (fun a b => a.sentAt ≤ b.sentAt)
    (st.messagesMap.filter (fun m => m.conversationId == conversationId))

/-- `MemStorage.updateUser` restricted to the presence fields the core
writes: `{isOnline: true}` on connect. Missing users are left unchanged
(the source returns `undefined`). -/
def setOnline (st : MemStorage) (id : Nat) : MemStorage :=
  { st with usersMap :=
      st.usersMap.map (fun u => if u.id == id then { u with isOnline := true } else u) }

/-- `MemStorage.updateUser` with `{isOnline: false, lastSeen: now}`,
as called from the disconnect handler. -/
def setOffline (st : MemStorage) (id now : Nat) : MemStorage :=
  { st with usersMap :=
      st.usersMap.map (fun u =>
        if u.id == id then { u with isOnline := false, lastSeen := some now } else u) }

/-- `MemStorage.updateConversation` specialised to the only write the
message path performs: `{lastMessageId, updatedAt: new Date()}`. -/
def setLastMessage (st : MemStorage) (id lastMessageId : Nat) : MemStorage :=
  { st with conversationsMap :=
      st.conversationsMap.map (fun c =>
        if c.id == id then { c with lastMessageId := some lastMessageId, updatedAt := st.now }
        else c) }

/-- The message row built by `MemStorage.createMessage`: fresh id,
`sentAt`/`deliveredAt` stamped with the current time, status `delivered`. -/
def newMessageOf (st : MemStorage) (im : InsertMessage) : Message :=
  { id := st.messageId
    conversationId := im.conversationId
    userId := im.userId
    content := im.content
    mediaUrl := im.mediaUrl
    mediaType := im.mediaType
    sentAt := st.now
    deliveredAt := some st.now
    status := "delivered" }

/-- `MemStorage.createMessage`: store the new row, bump the counter, and
update the conversation's `lastMessageId` when the conversation exists. -/
def createMessage (st : MemStorage) (im : InsertMessage) : MemStorage × Message :=
  let m := st.newMessageOf im
  let st1 := { st with messagesMap := st.messagesMap ++ [m], messageId := st.messageId + 1 }
  match st1.getConversation im.conversationId with
  | some conv => (st1.setLastMessage conv.id m.id, m)
  | none => (st1, m)

/-- The row built by `MemStorage.createMessageStatus`: `readAt` is
recomputed from `isRead` (`insertStatus.isRead ? new Date() : null`),
overriding any caller-supplied `readAt`. -/
def mkMessageStatusRow (id : Nat) (ins : InsertMessageStatus) (now : Nat) : MessageStatus :=
  { id := id
    messageId := ins.messageId
    userId := ins.userId
    isRead := ins.isRead
    readAt := if ins.isRead then some now else none }

/-- `MemStorage.createMessageStatus`. -/
def createMessageStatus (st : MemStorage) (ins : InsertMessageStatus) :
    MemStorage × MessageStatus :=
  let row := mkMessageStatusRow st.messageStatusId ins st.now
  ({ st with messageStatusMap := st.messageStatusMap ++ [row],
             messageStatusId := st.messageStatusId + 1 }, row)

/-- `MemStorage.getMessageStatus`. -/
def getMessageStatus (st : MemStorage) (messageId userId : Nat) : Option MessageStatus :=
  st.messageStatusMap.find? (fun s => s.messageId == messageId && s.userId == userId)

/-- `MemStorage.updateMessageStatus`: find the `(messageId, userId)` row,
rewrite `isRead` and recompute `readAt`, and re-store it under its id
(`messageStatusMap.set(status.id, updatedStatus)`). Returns `none`
(source: `undefined`) when the row does not exist. -/
def updateMessageStatus (st : MemStorage) (messageId userId : Nat) (isRead : Bool) :
    Option (MemStorage × MessageStatus) :=
  match st.getMessageStatus messageId userId with
  | none => none
  | some status =>
    let updated : MessageStatus :=
      { status with isRead := isRead, readAt := if isRead then some st.now else none }
    some ({ st with messageStatusMap :=
              st.messageStatusMap.map (fun s => if s.id == status.id then updated else s) },
          updated)

/-- `MemStorage.createConversation`. -/
def createConversation (st : MemStorage) (ic : InsertConversation) :
    MemStorage × Conversation :=
  let c : Conversation :=
    { id := st.conversationId
      name := ic.name
      isGroup := ic.isGroup
      createdAt := st.now
      updatedAt := st.now
      lastMessageId := none }
  ({ st with conversationsMap := st.conversationsMap ++ [c],
             conversationId := st.conversationId + 1 }, c)

/-- `MemStorage.addParticipant`. -/
def addParticipant (st : MemStorage) (ip : InsertParticipant) :
    MemStorage × Participant :=
  let p : Participant :=
    { id := st.participantId
      userId := ip.userId
      conversationId := ip.conversationId
      isAdmin := ip.isAdmin
      joinedAt := st.now }
  ({ st with participantsMap := st.participantsMap ++ [p],
             participantId := st.participantId + 1 }, p)

/-- The search half of `MemStorage.findOrCreateOneToOneConversation`:
among the caller's non-group conversations, the first one in which the
other user is a participant. -/
def searchDirect (st : MemStorage) (user1Id user2Id : Nat) : Option Conversation :=
  ((st.getConversationsByUserId user1Id).filter (fun c => !c.isGroup)).find?
    (fun c => (st.getParticipantsByConversationId c.id).any (fun p => p.userId == user2Id))

/-- `MemStorage.findOrCreateOneToOneConversation`: return the existing
direct conversation if found, otherwise create one and add both users as
non-admin participants. -/
def findOrCreateOneToOneConversation (st : MemStorage) (user1Id user2Id : Nat) :
    MemStorage × Conversation :=
  match st.searchDirect user1Id user2Id with
  | some c => (st, c)
  | none =>
    let r1 := st.createConversation { name := none, isGroup := false, avatarUrl := none }
    let r2 := r1.1.addParticipant
      { userId := user1Id, conversationId := r1.2.id, isAdmin := false }
    let r3 := r2.1.addParticipant
      { userId := user2Id, conversationId := r1.2.id, isAdmin := false }
    (r3.1, r1.2)

end MemStorage

/-! ## The websocket layer (`src/server/websocket.ts`) -/

/-- `ws` readyState, as far as the server consults it. -/
inductive ReadyState where
  | open
  | closed
  deriving Repr, DecidableEq

/-- One live transport-level socket, identified by `connId`. -/
structure WSConn where
  connId : Nat
  readyState : ReadyState
  deriving Repr, DecidableEq

/-- `ChatWebSocketServer.clients : Map<number, Client>` — the session
registry, keyed by user id (modelled as an association list with
JavaScript `Map` semantics). -/
abbrev ClientMap := List (Nat × WSConn)

/-- `Map.prototype.get`. -/
def mapGet (m : ClientMap) (k : Nat) : Option WSConn :=
  (m.find? (fun e => e.1 == k)).map (fun e => e.2)

/-- `Map.prototype.set`: update in place when the key exists, append
otherwise. -/
def mapSet (m : ClientMap) (k : Nat) (v : WSConn) : ClientMap :=
  if m.any (fun e => e.1 == k) then
    m.map (fun e => if e.1 == k then (k, v) else e)
  else
    m ++ [(k, v)]

/-- `Map.prototype.delete`. -/
def mapDelete (m : ClientMap) (k : Nat) : ClientMap :=
  m.filter (fun e => e.1 != k)

/-- `this.clients.set(userId, { userId, ws })` — registering the socket of
a freshly authenticated user. -/
def registerClient (m : ClientMap) (userId : Nat) (ws : WSConn) : ClientMap :=
  mapSet m userId ws

/-- The guard used before every send: the recipient has a registered
client whose socket is open (`client && client.ws.readyState === OPEN`). -/
def isOpenClient (m : ClientMap) (userId : Nat) : Bool :=
  match mapGet m userId with
  | some c => c.readyState == ReadyState.open
  | none => false

/-- Outbound events the server writes to sockets (the `{type, payload}`
envelopes of `websocket.ts`). -/
inductive WSEvent where
  | newMessage (message : Message)
  | messageSent (message : Message)
  | typingIndicator (conversationId userId : Nat) (isTyping : Bool)
  | statusUpdate (messageId userId : Nat) (isRead : Bool)
  | userStatusChange (userId : Nat) (isOnline : Bool) (lastSeen : Option Nat)
  | errorEvent (message : String)
  deriving Repr, DecidableEq

/-- A send performed by the server: target user id and event. -/
abbrev Send := Nat × WSEvent

/-- The fan-out loop of `handleChatMessage` (and `handleTypingIndicator`):
for every participant other than the sender, push the event iff the
participant has a registered open socket; unreachable participants are
skipped. -/
def fanoutSends (clients : ClientMap) (parts : List Participant) (sender : Nat)
    (ev : WSEvent) : List Send :=
  parts.filterMap (fun p =>
    if p.userId == sender then none
    else if isOpenClient clients p.userId then some (p.userId, ev)
    else none)

/-- The status-creation loop of `handleChatMessage`: one
`createMessageStatus` call per participant, `isRead` true exactly when the
participant is the sender. -/
def createStatuses (st : MemStorage) (messageId sender : Nat)
    (parts : List Participant) : MemStorage :=
  parts.foldl (fun s p =>
    (s.createMessageStatus
      { messageId := messageId, userId := p.userId, isRead := p.userId == sender }).1) st

/-- `ChatWebSocketServer.handleChatMessage` (`websocket.ts:100-138`):
persist the message, create a status row per participant, then fan out to
every online participant except the sender. Returns the new store state
and the list of sends. Note: no validation of `content`/`mediaUrl` is
performed, and no confirmation is sent to the sender. -/
def handleChatMessage (st : MemStorage) (clients : ClientMap) (userId : Nat)
    (conversationId : Nat) (content mediaUrl mediaType : Option String) :
    MemStorage × List Send :=
  let r := st.createMessage
    { conversationId := conversationId, userId := userId,
      content := content, mediaUrl := mediaUrl, mediaType := mediaType }
  let participants := r.1.getParticipantsByConversationId conversationId
  let st2 := createStatuses r.1 r.2.id userId participants
  (st2, fanoutSends clients participants userId (WSEvent.newMessage r.2))

/-- The `ws.on('message')` wrapper around a chat-message event
(`websocket.ts:26-55`): when `storage.createMessage` rejects
(`createOk = false`, the persistence-failure case), the exception
propagates before any status creation or fan-out and the catch block
sends an error event back on the sender's own socket. -/
def wsChatMessageFlow (createOk : Bool) (st : MemStorage) (clients : ClientMap)
    (userId conversationId : Nat) (content mediaUrl mediaType : Option String) :
    MemStorage × List Send :=
  if createOk then
    handleChatMessage st clients userId conversationId content mediaUrl mediaType
  else
    (st, [(userId, WSEvent.errorEvent "Invalid message format")])

/-- `ChatWebSocketServer.handleMessageStatus` (`websocket.ts:168-197`):
update the `(messageId, reader)` status row; if the reader is not the
message's author, notify the author's open socket with a status event. -/
def handleMessageStatus (st : MemStorage) (clients : ClientMap) (userId : Nat)
    (messageId : Nat) (isRead : Bool) : MemStorage × List Send :=
  match st.updateMessageStatus messageId userId isRead with
  | none => (st, [])
  | some r =>
    match r.1.getMessage messageId with
    | none => (r.1, [])
    | some message =>
      if message.userId != userId then
        if isOpenClient clients message.userId then
          (r.1, [(message.userId, WSEvent.statusUpdate messageId userId isRead)])
        else (r.1, [])
      else (r.1, [])

/-- `ChatWebSocketServer.broadcastUserStatus` (`websocket.ts:200-224`):
for every conversation of the user, notify each other participant that has
a registered open socket. The loop is per conversation — recipients are
not deduplicated across shared conversations. (`lastSeen` in the payload
is `new Date()` when going online and `null` when going offline, as in the
source.) -/
def broadcastUserStatus (st : MemStorage) (clients : ClientMap) (userId : Nat)
    (isOnline : Bool) (now : Nat) : List Send :=
  (st.getConversationsByUserId userId).flatMap (fun conv =>
    (st.getParticipantsByConversationId conv.id).filterMap (fun p =>
      if p.userId == userId then none
      else if isOpenClient clients p.userId then
        some (p.userId,
          WSEvent.userStatusChange userId isOnline (if isOnline then some now else none))
      else none))

/-- The authentication branch of `ws.on('message')`
(`websocket.ts:34-47`): register the socket under the user id
(overwriting any existing entry), mark the user online in the store, and
broadcast the online transition. -/
def handleAuthUser (st : MemStorage) (clients : ClientMap) (userId : Nat)
    (ws : WSConn) : MemStorage × ClientMap × List Send :=
  let clients' := registerClient clients userId ws
  let st' := st.setOnline userId
  (st', clients', broadcastUserStatus st' clients' userId true st.now)

/-- `ws.on('close')` (`websocket.ts:57-71`): when the socket had
authenticated as `userId`, delete that user's registry entry, mark the
user offline with a last-seen timestamp, and broadcast the offline
transition. -/
def handleClose (st : MemStorage) (clients : ClientMap) (userId : Option Nat)
    (now : Nat) : MemStorage × ClientMap × List Send :=
  match userId with
  | none => (st, clients, [])
  | some u =>
    let clients' := mapDelete clients u
    let st' := st.setOffline u now
    (st', clients', broadcastUserStatus st' clients' u false now)

/-! ## The HTTP message-creation endpoint (`src/server/routes.ts`) -/

/-- JavaScript truthiness of an optional string (`!content` is true for
both `undefined`/`null` and the empty string). -/
def jsTruthy (s : Option String) : Bool :=
  match s with
  | some str => str != ""
  | none => false

/-- `x || null`. -/
def jsOrNull (s : Option String) : Option String :=
  if jsTruthy s then s else none

/-- Outcome of an HTTP request: response status, resulting store state and
websocket sends triggered by the handler. -/
structure HttpResult where
  status : Nat
  st : MemStorage
  sends : List Send
  deriving Repr, DecidableEq

/-- `POST /api/messages` (`routes.ts:408-491`): authenticate, require a
conversation id, reject when both `content` and `mediaUrl` are falsy
(400), check the conversation and membership, create the message, create
one status row per participant (the sender's pre-marked read), update
`lastMessageId`, and push a `new_message` event to every other online
participant. -/
def httpPostMessages (st : MemStorage) (clients : ClientMap) (user : Option Nat)
    (conversationId : Option Nat) (content mediaUrl mediaType : Option String) :
    HttpResult :=
  match user with
  | none => { status := 401, st := st, sends := [] }
  | some uid =>
    match conversationId with
    | none => { status := 400, st := st, sends := [] }
    | some cid =>
      if !jsTruthy content && !jsTruthy mediaUrl then
        { status := 400, st := st, sends := [] }
      else
        match st.getConversation cid with
        | none => { status := 404, st := st, sends := [] }
        | some _ =>
          match st.getParticipant uid cid with
          | none => { status := 403, st := st, sends := [] }
          | some _ =>
            let r := st.createMessage
              { conversationId := cid, userId := uid,
                content := jsOrNull content, mediaUrl := jsOrNull mediaUrl,
                mediaType := jsOrNull mediaType }
            let parts := r.1.getParticipantsByConversationId cid
            let st2 := parts.foldl (fun s p =>
              (s.createMessageStatus
                { messageId := r.2.id, userId := p.userId,
                  isRead := p.userId == uid,
                  readAt := if p.userId == uid then some s.now else none }).1) r.1
            let st3 := st2.setLastMessage cid r.2.id
            { status := 201, st := st3,
              sends := fanoutSends clients parts uid (WSEvent.newMessage r.2) }

/-! ## MongoDB store (`src/server/mongodb-storage.ts`) — message-status rows -/

/-- The document built by `MongodbStorage.createMessageStatus`
(`new MessageStatusModel({...insertStatus, readAt: isRead ? now : null})`);
`docId` stands for the Mongo-assigned `_id`. Any caller-supplied `readAt`
is overridden by the spread order. -/
def mongoMessageStatusDoc (docId : Nat) (ins : InsertMessageStatus) (now : Nat) :
    MessageStatus :=
  { id := docId
    messageId := ins.messageId
    userId := ins.userId
    isRead := ins.isRead
    readAt := if ins.isRead then some now else none }

/-- `MongodbStorage.updateMessageStatus`
(`findOneAndUpdate({messageId, userId}, {isRead, readAt}, {new: true})`):
update the first matching document, returning the updated document, or
`none` when no document matches. -/
def mongoUpdateMessageStatus (docs : List MessageStatus) (messageId userId : Nat)
    (isRead : Bool) (now : Nat) : Option (List MessageStatus × MessageStatus) :=
  match docs.find? (fun s => s.messageId == messageId && s.userId == userId) with
  | none => none
  | some s =>
    let updated : MessageStatus :=
      { s with isRead := isRead, readAt := if isRead then some now else none }
    some (docs.map (fun d => if d.id == s.id then updated else d), updated)

/-! ## Spec-level vocabulary used by the theorem statements -/

/-- Identity `u` has a participant row in conversation `cid`. -/
def participatesP (st : MemStorage) (u cid : Nat) : Prop :=
  ∃ p ∈ st.participantsMap, p.userId = u ∧ p.conversationId = cid

instance (st : MemStorage) (u cid : Nat) : Decidable (participatesP st u cid) :=
  List.decidableBEx _ st.participantsMap

/-- A stored conversation is a direct (non-group) conversation between
`a` and `b`. -/
def isDirectBetween (st : MemStorage) (a b : Nat) (c : Conversation) : Prop :=
  c.isGroup = false ∧ participatesP st a c.id ∧ participatesP st b c.id

instance (st : MemStorage) (a b : Nat) (c : Conversation) :
    Decidable (isDirectBetween st a b c) := by
  unfold isDirectBetween; infer_instance

/-- All stored direct conversations between `a` and `b`. -/
def directConversationsBetween (st : MemStorage) (a b : Nat) : List Conversation :=
  st.conversationsMap.filter (fun c => decide (isDirectBetween st a b c))

/-- The presence invariant of spec property P4: a stored user is flagged
online exactly when the session registry holds a connection for it. -/
def presenceInv (st : MemStorage) (m : ClientMap) : Bool :=
  st.usersMap.all (fun x => x.isOnline == (mapGet m x.id).isSome)

/-- The conversation row built by the create branch of
`findOrCreateOneToOneConversation`. -/
def createdDirectConv (st : MemStorage) : Conversation :=
  { id := st.conversationId, name := none, isGroup := false,
    createdAt := st.now, updatedAt := st.now, lastMessageId := none }

/-- The store state after the create branch of
`findOrCreateOneToOneConversation` has run: the new conversation plus one
participant row for each of the two users. -/
def createdDirectState (st : MemStorage) (a b : Nat) : MemStorage :=
  { st with
      conversationsMap := st.conversationsMap ++ [createdDirectConv st],
      conversationId := st.conversationId + 1,
      participantsMap := st.participantsMap ++
        [{ id := st.participantId, userId := a, conversationId := st.conversationId,
           isAdmin := false, joinedAt := st.now },
         { id := st.participantId + 1, userId := b, conversationId := st.conversationId,
           isAdmin := false, joinedAt := st.now }],
      participantId := st.participantId + 2 }

/-! ## Concrete fixtures used by witnesses and counterexamples -/

/-- A user row with everything but the id fixed. -/
def userFix (i : Nat) : User :=
  { id := i, isOnline := true, lastSeen := none }

/-- A direct conversation row. -/
def convFix (i : Nat) : Conversation :=
  { id := i, name := none, isGroup := false, createdAt := 0, updatedAt := 0,
    lastMessageId := none }

/-- A participant row. -/
def partFix (pid uid cid : Nat) : Participant :=
  { id := pid, userId := uid, conversationId := cid, isAdmin := false, joinedAt := 0 }

/-- Store with users 1 and 2 sharing direct conversation 1. -/
def stA : MemStorage :=
  { usersMap := [userFix 1, userFix 2]
    conversationsMap := [convFix 1]
    participantsMap := [partFix 1 1 1, partFix 2 2 1]
    messagesMap := []
    messageStatusMap := []
    userId := 3, conversationId := 2, participantId := 3
    messageId := 1, messageStatusId := 1, now := 50 }

/-- Registry where both users 1 and 2 have an open connection. -/
def clientsA : ClientMap := [(1, ⟨11, ReadyState.open⟩), (2, ⟨22, ReadyState.open⟩)]

/-- Store with users 1 and 2 sharing the two conversations 1 and 2. -/
def stB : MemStorage :=
  { usersMap := [userFix 1, userFix 2]
    conversationsMap := [convFix 1, convFix 2]
    participantsMap := [partFix 1 1 1, partFix 2 2 1, partFix 3 1 2, partFix 4 2 2]
    messagesMap := []
    messageStatusMap := []
    userId := 3, conversationId := 3, participantId := 5
    messageId := 1, messageStatusId := 1, now := 50 }

/-- The empty store, as freshly constructed counters would start. -/
def stEmpty : MemStorage :=
  { usersMap := []
    conversationsMap := []
    participantsMap := []
    messagesMap := []
    messageStatusMap := []
    userId := 1, conversationId := 1, participantId := 1
    messageId := 1, messageStatusId := 1, now := 0 }

/-- A persisted message authored by user 1 in conversation 1. -/
def msgC6 : Message :=
  { id := 1, conversationId := 1, userId := 1, content := some "hi",
    mediaUrl := none, mediaType := none, sentAt := 10,
    deliveredAt := some 10, status := "delivered" }

/-- Store where message 1 (by user 1) has status rows for users 1 and 2. -/
def stC6 : MemStorage :=
  { stA with
    messagesMap := [msgC6],
    messageStatusMap := [⟨1, 1, 1, true, some 10⟩, ⟨2, 1, 2, false, none⟩],
    messageId := 2, messageStatusId := 3 }

/-- Store holding one unread status row for message 7 and user 2, used to
exercise the update paths. -/
def stW : MemStorage :=
  { stEmpty with messageStatusMap := [⟨1, 7, 2, false, none⟩], messageStatusId := 2 }

/-- The documents of the MongoDB store in the same situation. -/
def docsW : List MessageStatus := [⟨1, 7, 2, false, none⟩]

/-- The per-participant status rows written by the status-creation loop of
`handleChatMessage`, spelled out: row `k` carries the `k`-th fresh id,
refers to the new message, and is pre-marked read exactly for the
sender. -/
def statusRows (i now mid sender : Nat) : List Participant → List MessageStatus
  | [] => []
  | p :: ps =>
      MemStorage.mkMessageStatusRow i
        { messageId := mid, userId := p.userId, isRead := p.userId == sender } now
        :: statusRows (i + 1) now mid sender ps

/-- The `sentAt` comparison used by the history query is total. -/
instance : IsTotal Message (fun a b => a.sentAt ≤ b.sentAt) :=
  ⟨fun a b => Nat.le_total a.sentAt b.sentAt⟩

/-- The `sentAt` comparison used by the history query is transitive. -/
instance : IsTrans Message (fun a b => a.sentAt ≤ b.sentAt) :=
  ⟨fun _ _ _ h1 h2 => Nat.le_trans h1 h2⟩

/-! ## Helper lemmas about the registry map -/

theorem find?_map_set (m : ClientMap) (u : Nat) (c : WSConn) :
    (m.map (fun e => if e.1 == u then (u, c) else e)).find? (fun e => e.1 == u)
      = if m.any (fun e => e.1 == u) then some (u, c) else none := by
  induction m with
  | nil => rfl
  | cons e t ih =>
    by_cases he : e.1 = u
    · simp [he, List.find?]
    · simp only [List.map_cons, List.any_cons]
      rw [if_neg (by simp [he]), List.find?]
      simp only [show (e.1 == u) = false by simp [he], Bool.false_or]
      exact ih

theorem find?_map_set_other (m : ClientMap) (u v : Nat) (c : WSConn) (hvu : v ≠ u) :
    (m.map (fun e => if e.1 == u then (u, c) else e)).find? (fun e => e.1 == v)
      = m.find? (fun e => e.1 == v) := by
  induction m with
  | nil => rfl
  | cons e t ih =>
    rw [List.map_cons]
    by_cases he : e.1 = u
    · rw [if_pos (by simp [he])]
      rw [List.find?_cons_of_neg _ (by simp [Ne.symm hvu]),
          List.find?_cons_of_neg _ (by simp [he, Ne.symm hvu])]
      exact ih
    · rw [if_neg (by simp [he])]
      by_cases hev : e.1 = v
      · rw [List.find?_cons_of_pos _ (by simp [hev]),
            List.find?_cons_of_pos _ (by simp [hev])]
      · rw [List.find?_cons_of_neg _ (by simp [hev]),
            List.find?_cons_of_neg _ (by simp [hev])]
        exact ih

theorem find?_append_none {p : Nat × WSConn → Bool} (m l : ClientMap)
    (h : m.find? p = none) : (m ++ l).find? p = l.find? p := by
  induction m with
  | nil => rfl
  | cons e t ih =>
    rw [List.cons_append, List.find?]
    rw [List.find?] at h
    cases hp : p e with
    | true => rw [hp] at h; exact absurd h (by simp)
    | false => rw [hp] at h; exact ih h

theorem mapGet_mapSet_self (m : ClientMap) (u : Nat) (c : WSConn) :
    mapGet (mapSet m u c) u = some c := by
  unfold mapSet mapGet
  by_cases h : m.any (fun e => e.1 == u)
  · rw [if_pos h, find?_map_set, if_pos h]; rfl
  · rw [if_neg h]
    have hn : m.find? (fun e => e.1 == u) = none := by
      rw [List.find?_eq_none]
      intro x hx hpx
      exact h (List.any_eq_true.mpr ⟨x, hx, hpx⟩)
    rw [find?_append_none _ _ hn]
    simp [List.find?]

theorem mapGet_mapSet_other (m : ClientMap) (u v : Nat) (c : WSConn) (hvu : v ≠ u) :
    mapGet (mapSet m u c) v = mapGet m v := by
  unfold mapSet mapGet
  by_cases h : m.any (fun e => e.1 == u)
  · rw [if_pos h, find?_map_set_other m u v c hvu]
  · rw [if_neg h]
    cases hf : m.find? (fun e => e.1 == v) with
    | some e => rw [List.find?_append, hf]; rfl
    | none =>
      rw [find?_append_none _ _ hf]
      rw [List.find?_cons_of_neg _ (by simp [Ne.symm hvu]), List.find?_nil]

theorem nodup_keys_mapSet (m : ClientMap) (u : Nat) (c : WSConn)
    (h : (m.map Prod.fst).Nodup) : ((mapSet m u c).map Prod.fst).Nodup := by
  unfold mapSet
  by_cases ha : m.any (fun e => e.1 == u)
  · rw [if_pos ha]
    have heq : (m.map (fun e => if e.1 == u then (u, c) else e)).map Prod.fst
        = m.map Prod.fst := by
      rw [List.map_map]
      apply List.map_congr_left
      intro e _
      by_cases he : e.1 = u
      · simp [Function.comp, he]
      · simp [Function.comp, he]
    rw [heq]; exact h
  · rw [if_neg ha]
    rw [List.map_append]
    simp only [List.map_cons, List.map_nil]
    rw [List.nodup_append]
    refine ⟨h, List.nodup_singleton u, ?_⟩
    intro a ha' hb
    simp only [List.mem_singleton] at hb
    subst hb
    obtain ⟨e, he, hfst⟩ := List.mem_map.mp ha'
    exact ha (List.any_eq_true.mpr ⟨e, he, by simp [hfst]⟩)

theorem filter_key_mapSet_length (m : ClientMap) (u : Nat) (c : WSConn)
    (h : (m.map Prod.fst).Nodup) :
    ((mapSet m u c).filter (fun e => e.1 == u)).length = 1 := by
  unfold mapSet
  by_cases ha : m.any (fun e => e.1 == u)
  · rw [if_pos ha]
    rw [← List.countP_eq_length_filter, List.countP_map]
    have hc : List.countP
          ((fun (e : Nat × WSConn) => e.1 == u) ∘ fun e => if e.1 == u then (u, c) else e) m
        = List.countP (fun (e : Nat × WSConn) => e.1 == u) m := by
      apply List.countP_congr
      intro e _
      by_cases he : e.1 = u
      · simp [Function.comp, he]
      · simp [Function.comp, he]
    rw [hc]
    have h2 : List.countP (fun (e : Nat × WSConn) => e.1 == u) m
        = (m.map Prod.fst).count u := by
      rw [List.count, List.countP_map]
      rfl
    obtain ⟨e0, he0, hp0⟩ := List.any_eq_true.mp ha
    have hu : u ∈ m.map Prod.fst := List.mem_map.mpr ⟨e0, he0, by simpa using hp0⟩
    have hle := List.nodup_iff_count_le_one.mp h u
    have hne : (m.map Prod.fst).count u ≠ 0 := fun hz => (List.count_eq_zero.mp hz) hu
    rw [h2]
    omega
  · rw [if_neg ha]
    rw [List.filter_append]
    have h1 : m.filter (fun e => e.1 == u) = [] := by
      rw [List.filter_eq_nil_iff]
      intro x hx hpx
      exact ha (List.any_eq_true.mpr ⟨x, hx, hpx⟩)
    rw [h1]
    simp

/-! ## Helper lemmas about fan-out and the chat-message handler -/

theorem fanout_elt (clients : ClientMap) (parts : List Participant) (sender : Nat)
    (ev : WSEvent) :
    ∀ x ∈ fanoutSends clients parts sender ev,
      x.2 = ev ∧ x.1 ≠ sender ∧ isOpenClient clients x.1 = true
        ∧ ∃ p ∈ parts, p.userId = x.1 := by
  intro x hx
  obtain ⟨p, hp, hf⟩ := List.mem_filterMap.mp hx
  by_cases h1 : p.userId = sender
  · simp [fanoutSends, h1] at hf
  · by_cases h2 : isOpenClient clients p.userId = true
    · rw [if_neg (by simp [h1]), if_pos (by simp [h2])] at hf
      have := Option.some.inj hf
      subst this
      exact ⟨rfl, h1, h2, p, hp, rfl⟩
    · rw [if_neg (by simp [h1]), if_neg (by simpa using h2)] at hf
      cases hf

theorem mem_fanoutSends (clients : ClientMap) (parts : List Participant) (sender : Nat)
    (ev : WSEvent) (u : Nat) :
    (u, ev) ∈ fanoutSends clients parts sender ev ↔
      ((∃ p ∈ parts, p.userId = u) ∧ u ≠ sender ∧ isOpenClient clients u = true) := by
  constructor
  · intro hx
    obtain ⟨_, hs, ho, hp⟩ := fanout_elt clients parts sender ev _ hx
    exact ⟨hp, hs, ho⟩
  · rintro ⟨⟨p, hp, hpu⟩, hs, ho⟩
    refine List.mem_filterMap.mpr ⟨p, hp, ?_⟩
    rw [if_neg (by simp [hpu ▸ hs]), if_pos (by rw [hpu]; exact ho), hpu]

theorem fanout_filter_sender_nil (clients : ClientMap) (parts : List Participant)
    (sender : Nat) (ev : WSEvent) :
    (fanoutSends clients parts sender ev).filter (fun s => s.1 == sender) = [] := by
  rw [List.filter_eq_nil_iff]
  intro x hx hpx
  exact (fanout_elt clients parts sender ev x hx).2.1 (by simpa using hpx)

theorem createStatuses_messagesMap :
    ∀ (ps : List Participant) (st : MemStorage) (mid sender : Nat),
      (createStatuses st mid sender ps).messagesMap = st.messagesMap := by
  intro ps
  induction ps with
  | nil => intro st mid sender; rfl
  | cons p t ih =>
    intro st mid sender
    simpa [createStatuses, List.foldl_cons] using
      ih ((st.createMessageStatus
        { messageId := mid, userId := p.userId, isRead := p.userId == sender }).1) mid sender

theorem createMessage_spec (st : MemStorage) (im : InsertMessage) :
    (st.createMessage im).2 = st.newMessageOf im
    ∧ (st.createMessage im).1.messagesMap = st.messagesMap ++ [st.newMessageOf im]
    ∧ (st.createMessage im).1.participantsMap = st.participantsMap
    ∧ (st.createMessage im).1.messageStatusMap = st.messageStatusMap
    ∧ (st.createMessage im).1.messageStatusId = st.messageStatusId
    ∧ (st.createMessage im).1.now = st.now := by
  simp only [MemStorage.createMessage]
  split <;> exact ⟨rfl, rfl, rfl, rfl, rfl, rfl⟩

theorem bool_eq_of_iff {a b : Bool} (h : a = true ↔ b = true) : a = b := by
  cases a <;> cases b
  · rfl
  · exact absurd (h.mpr rfl) (by simp)
  · exact absurd (h.mp rfl) (by simp)
  · rfl

theorem mapGet_mapDelete_self (m : ClientMap) (u : Nat) :
    mapGet (mapDelete m u) u = none := by
  unfold mapGet mapDelete
  have h : (m.filter (fun e => e.1 != u)).find? (fun e => e.1 == u) = none := by
    rw [List.find?_eq_none]
    intro x hx
    have hx2 := (List.mem_filter.mp hx).2
    simp at hx2 ⊢
    exact hx2
  rw [h]
  rfl

theorem mapGet_mapDelete_other (m : ClientMap) (u v : Nat) (hvu : ¬ v = u) :
    mapGet (mapDelete m u) v = mapGet m v := by
  unfold mapGet mapDelete
  induction m with
  | nil => rfl
  | cons e t ih =>
    rw [List.filter_cons]
    by_cases he : e.1 = u
    · rw [if_neg (by simp [he])]
      have hne : (e.1 == v) = false :=
        beq_eq_false_iff_ne.mpr (by rw [he]; exact fun h => hvu h.symm)
      rw [List.find?_cons_of_neg _ (by simp [hne])]
      exact ih
    · rw [if_pos (by simp [he])]
      by_cases hev : e.1 = v
      · rw [List.find?_cons_of_pos _ (by simp [hev]),
            List.find?_cons_of_pos _ (by simp [hev])]
      · rw [List.find?_cons_of_neg _ (by simp [hev]),
            List.find?_cons_of_neg _ (by simp [hev])]
        exact ih

theorem presenceInv_close (st : MemStorage) (cl : ClientMap) (u now : Nat)
    (hinv : presenceInv st cl = true) :
    presenceInv (st.setOffline u now) (mapDelete cl u) = true := by
  rw [presenceInv, List.all_eq_true] at hinv
  rw [presenceInv, List.all_eq_true]
  intro y hy
  have hy' : y ∈ st.usersMap.map (fun x =>
      if x.id == u then { x with isOnline := false, lastSeen := some now } else x) := hy
  obtain ⟨y0, hy0, hfy⟩ := List.mem_map.mp hy'
  subst hfy
  by_cases hid : y0.id = u
  · simp [hid, mapGet_mapDelete_self]
  · simp only [show (y0.id == u) = false by simp [hid], Bool.false_eq_true, if_false]
    rw [mapGet_mapDelete_other cl u y0.id hid]
    exact hinv y0 hy0

theorem presenceInv_register (st : MemStorage) (cl : ClientMap) (v : Nat) (ws : WSConn)
    (hinv : presenceInv st cl = true) :
    presenceInv (st.setOnline v) (registerClient cl v ws) = true := by
  rw [presenceInv, List.all_eq_true] at hinv
  rw [presenceInv, List.all_eq_true]
  intro y hy
  have hy' : y ∈ st.usersMap.map (fun x =>
      if x.id == v then { x with isOnline := true } else x) := hy
  obtain ⟨y0, hy0, hfy⟩ := List.mem_map.mp hy'
  subst hfy
  by_cases hid : y0.id = v
  · simp [hid, registerClient, mapGet_mapSet_self]
  · simp only [show (y0.id == v) = false by simp [hid], Bool.false_eq_true, if_false]
    rw [registerClient, mapGet_mapSet_other cl v y0.id ws hid]
    exact hinv y0 hy0

theorem setOffline_flags (st : MemStorage) (u now : Nat) :
    ((st.setOffline u now).usersMap.all
      (fun y => y.id != u || (!y.isOnline && y.lastSeen == some now))) = true := by
  rw [List.all_eq_true]
  intro y hy
  have hy' : y ∈ st.usersMap.map (fun x =>
      if x.id == u then { x with isOnline := false, lastSeen := some now } else x) := hy
  obtain ⟨y0, hy0, hfy⟩ := List.mem_map.mp hy'
  subst hfy
  by_cases hid : y0.id = u
  · simp [hid]
  · simp [hid]

theorem broadcast_elt (st : MemStorage) (cl : ClientMap) (uid : Nat) (io : Bool)
    (now : Nat) :
    ∀ s ∈ broadcastUserStatus st cl uid io now,
      s.1 ≠ uid ∧ isOpenClient cl s.1 = true
        ∧ s.2 = WSEvent.userStatusChange uid io (if io then some now else none)
        ∧ ∃ conv ∈ st.getConversationsByUserId uid, participatesP st s.1 conv.id := by
  intro s hs
  obtain ⟨conv, hconv, hsin⟩ := List.mem_flatMap.mp hs
  obtain ⟨p, hp, hg⟩ := List.mem_filterMap.mp hsin
  by_cases h1 : p.userId = uid
  · simp [h1] at hg
  · by_cases h2 : isOpenClient cl p.userId = true
    · rw [if_neg (by simp [h1]), if_pos (by simp [h2])] at hg
      have hse := Option.some.inj hg
      subst hse
      refine ⟨h1, h2, rfl, conv, hconv, ?_⟩
      have hp' := List.mem_filter.mp hp
      exact ⟨p, hp'.1, rfl, by simpa using hp'.2⟩
    · rw [if_neg (by simp [h1]), if_neg (by simpa using h2)] at hg
      cases hg

theorem broadcast_any (st : MemStorage) (cl : ClientMap) (uid : Nat) (io : Bool)
    (now x : Nat) :
    ((broadcastUserStatus st cl uid io now).any (fun s => s.1 == x))
      = ((x != uid) && isOpenClient cl x
          && ((st.getConversationsByUserId uid).any
                (fun conv => decide (participatesP st x conv.id)))) := by
  apply bool_eq_of_iff
  constructor
  · intro h
    obtain ⟨s, hs, hsx⟩ := List.any_eq_true.mp h
    rcases broadcast_elt st cl uid io now s hs with ⟨hne, hopen, _, conv, hconv, hpart⟩
    have hx : s.1 = x := by simpa using hsx
    subst hx
    have h1 : (s.1 != uid) = true := by simpa using hne
    have h2 : ((st.getConversationsByUserId uid).any
        (fun conv => decide (participatesP st s.1 conv.id))) = true :=
      List.any_eq_true.mpr ⟨conv, hconv, by simpa using hpart⟩
    simp [h1, hopen, h2]
  · intro h
    have hsplit : ((x != uid) = true ∧ isOpenClient cl x = true)
        ∧ ((st.getConversationsByUserId uid).any
            (fun conv => decide (participatesP st x conv.id))) = true := by
      simpa using h
    obtain ⟨⟨h1, h2⟩, h3⟩ := hsplit
    obtain ⟨conv, hconv, hpart⟩ := List.any_eq_true.mp h3
    have hubne : ¬ x = uid := by simpa using h1
    have hpart' : participatesP st x conv.id := by simpa using hpart
    obtain ⟨p, hpmem, hpu, hpc⟩ := hpart'
    apply List.any_eq_true.mpr
    refine ⟨(x, WSEvent.userStatusChange uid io (if io then some now else none)),
      ?_, by simp⟩
    apply List.mem_flatMap.mpr
    refine ⟨conv, hconv, ?_⟩
    apply List.mem_filterMap.mpr
    refine ⟨p, ?_, ?_⟩
    · exact List.mem_filter.mpr ⟨hpmem, by simp [hpc]⟩
    · rw [if_neg (by simp [hpu, hubne]), if_pos (by rw [hpu]; exact h2), hpu]

theorem createStatuses_statusMap :
    ∀ (ps : List Participant) (st : MemStorage) (mid sender : Nat),
      (createStatuses st mid sender ps).messageStatusMap
        = st.messageStatusMap ++ statusRows st.messageStatusId st.now mid sender ps := by
  intro ps
  induction ps with
  | nil => intro st mid sender; simp [createStatuses, statusRows]
  | cons p t ih =>
    intro st mid sender
    have step := ih ((st.createMessageStatus
      { messageId := mid, userId := p.userId, isRead := p.userId == sender }).1) mid sender
    simp only [createStatuses, List.foldl_cons] at step ⊢
    rw [step]
    simp [MemStorage.createMessageStatus, statusRows, List.append_assoc]

theorem statusRows_props :
    ∀ (ps : List Participant) (i now mid sender : Nat),
      ∀ s ∈ statusRows i now mid sender ps,
        s.messageId = mid ∧ s.isRead = (s.userId == sender) := by
  intro ps
  induction ps with
  | nil => intro i now mid sender s hs; cases hs
  | cons p t ih =>
    intro i now mid sender s hs
    rcases List.mem_cons.mp hs with rfl | hmem
    · exact ⟨rfl, rfl⟩
    · exact ih (i + 1) now mid sender s hmem

theorem statusRows_filter_user (u now mid sender : Nat) :
    ∀ (ps : List Participant) (i : Nat),
      ((statusRows i now mid sender ps).filter
        (fun s => s.messageId == mid && s.userId == u)).length
      = (ps.map Participant.userId).count u := by
  intro ps
  induction ps with
  | nil => intro i; rfl
  | cons p t ih =>
    intro i
    show ((MemStorage.mkMessageStatusRow i
        { messageId := mid, userId := p.userId, isRead := p.userId == sender } now
        :: statusRows (i + 1) now mid sender t).filter
          (fun s => s.messageId == mid && s.userId == u)).length
      = ((p :: t).map Participant.userId).count u
    by_cases hpu : p.userId = u
    · rw [List.filter_cons_of_pos (by simp [MemStorage.mkMessageStatusRow, hpu])]
      rw [List.length_cons, ih (i + 1), List.map_cons, List.count_cons]
      simp [hpu]
    · rw [List.filter_cons_of_neg (by simp [MemStorage.mkMessageStatusRow, hpu])]
      rw [ih (i + 1), List.map_cons, List.count_cons]
      simp [Ne.symm hpu, hpu]

theorem statusRows_isRead_eq_sender (now mid sender : Nat)
    (ps : List Participant) (i : Nat) :
    (statusRows i now mid sender ps).filter (fun s => s.messageId == mid && s.isRead)
      = (statusRows i now mid sender ps).filter
          (fun s => s.messageId == mid && s.userId == sender) := by
  apply List.filter_congr
  intro s hs
  rw [(statusRows_props ps i now mid sender s hs).2]

theorem filter_and_fresh_nil (l : List MessageStatus) (mid : Nat)
    (q : MessageStatus → Bool) (hfresh : ∀ s ∈ l, s.messageId ≠ mid) :
    l.filter (fun s => s.messageId == mid && q s) = [] := by
  rw [List.filter_eq_nil_iff]
  intro s hs hp
  have hp' : s.messageId = mid ∧ q s = true := by simpa using hp
  exact hfresh s hs hp'.1

theorem find?_map_replace (l : List MessageStatus) (pred : MessageStatus → Bool)
    (row0 updated : MessageStatus)
    (hfind : l.find? pred = some row0)
    (hids : (l.map MessageStatus.id).Nodup)
    (hup : pred updated = true)
    (hid : updated.id = row0.id) :
    (l.map (fun s => if s.id == row0.id then updated else s)).find? pred
      = some updated := by
  induction l with
  | nil => cases hfind
  | cons e t ih =>
    rw [List.map_cons] at hids ⊢
    rw [List.nodup_cons] at hids
    cases hpe : pred e with
    | true =>
      rw [List.find?_cons_of_pos _ hpe] at hfind
      have he : e = row0 := Option.some.inj hfind
      subst he
      rw [if_pos (by simp)]
      exact List.find?_cons_of_pos _ hup
    | false =>
      rw [List.find?_cons_of_neg _ (by simp [hpe])] at hfind
      have hrmem : row0 ∈ t := List.mem_of_find?_eq_some hfind
      have hne : e.id ≠ row0.id :=
        fun hEq => hids.1 (List.mem_map.mpr ⟨row0, hrmem, hEq.symm⟩)
      rw [if_neg (by simp [hne])]
      rw [List.find?_cons_of_neg _ (by simp [hpe])]
      exact ih hfind hids.2

theorem find?_id_nodup (l : List Conversation) (c : Conversation)
    (hids : (l.map Conversation.id).Nodup) (hc : c ∈ l) :
    l.find? (fun x => x.id == c.id) = some c := by
  induction l with
  | nil => cases hc
  | cons d t ih =>
    rw [List.map_cons, List.nodup_cons] at hids
    rcases List.mem_cons.mp hc with rfl | hmem
    · rw [List.find?_cons_of_pos _ (by simp)]
    · have hne : d.id ≠ c.id :=
        fun hEq => hids.1 (List.mem_map.mpr ⟨c, hmem, hEq.symm⟩)
      rw [List.find?_cons_of_neg _ (by simp [hne])]
      exact ih hids.2 hmem

theorem getConversation_eq (st : MemStorage) (i : Nat) (c : Conversation)
    (h : st.getConversation i = some c) : c ∈ st.conversationsMap ∧ c.id = i := by
  refine ⟨List.mem_of_find?_eq_some h, ?_⟩
  have h2 := List.find?_some h
  simpa using h2

theorem mem_getConversationsByUserId (st : MemStorage) (u : Nat) (c : Conversation) :
    c ∈ st.getConversationsByUserId u
      ↔ ∃ p ∈ st.participantsMap, p.userId = u
          ∧ st.getConversation p.conversationId = some c := by
  unfold MemStorage.getConversationsByUserId
  rw [List.mem_filterMap]
  constructor
  · rintro ⟨p, hp, hg⟩
    have hp' := List.mem_filter.mp hp
    exact ⟨p, hp'.1, by simpa using hp'.2, hg⟩
  · rintro ⟨p, hp, hpu, hg⟩
    exact ⟨p, List.mem_filter.mpr ⟨hp, by simp [hpu]⟩, hg⟩

theorem mem_directConversationsBetween (st : MemStorage) (a b : Nat)
    (c : Conversation) :
    c ∈ directConversationsBetween st a b
      ↔ c ∈ st.conversationsMap ∧ isDirectBetween st a b c := by
  unfold directConversationsBetween
  rw [List.mem_filter]
  simp

theorem any_participants_eq (st : MemStorage) (cid b : Nat) :
    ((st.getParticipantsByConversationId cid).any (fun p => p.userId == b)) = true
      ↔ participatesP st b cid := by
  rw [List.any_eq_true]
  constructor
  · rintro ⟨p, hp, hpb⟩
    have hp' := List.mem_filter.mp hp
    exact ⟨p, hp'.1, by simpa using hpb, by simpa using hp'.2⟩
  · rintro ⟨p, hp, hpu, hpc⟩
    exact ⟨p, List.mem_filter.mpr ⟨hp, by simp [hpc]⟩, by simp [hpu]⟩

theorem searchDirect_some (st : MemStorage) (a b : Nat) (c : Conversation)
    (h : st.searchDirect a b = some c) : c ∈ directConversationsBetween st a b := by
  unfold MemStorage.searchDirect at h
  have hmem := List.mem_of_find?_eq_some h
  have hpred := List.find?_some h
  have hmem' := List.mem_filter.mp hmem
  have hng : c.isGroup = false := by simpa using hmem'.2
  obtain ⟨p, hp, hpu, hg⟩ := (mem_getConversationsByUserId st a c).mp hmem'.1
  obtain ⟨hcm, hcid⟩ := getConversation_eq st p.conversationId c hg
  rw [mem_directConversationsBetween]
  exact ⟨hcm, hng, ⟨p, hp, hpu, hcid.symm⟩, (any_participants_eq st c.id b).mp hpred⟩

theorem searchDirect_exists (st : MemStorage) (a b : Nat) (d : Conversation)
    (hids : (st.conversationsMap.map Conversation.id).Nodup)
    (hd : d ∈ directConversationsBetween st a b) :
    ∃ c, st.searchDirect a b = some c := by
  obtain ⟨hdm, hng, hpa, hpb⟩ := (mem_directConversationsBetween st a b d).mp hd
  obtain ⟨p, hp, hpu, hpc⟩ := hpa
  have hgc : st.getConversation p.conversationId = some d := by
    rw [hpc]
    exact find?_id_nodup st.conversationsMap d hids hdm
  have hmem : d ∈ st.getConversationsByUserId a :=
    (mem_getConversationsByUserId st a d).mpr ⟨p, hp, hpu, hgc⟩
  have hmem2 : d ∈ (st.getConversationsByUserId a).filter (fun c => !c.isGroup) :=
    List.mem_filter.mpr ⟨hmem, by simp [hng]⟩
  have hpredd : ((st.getParticipantsByConversationId d.id).any
      (fun p => p.userId == b)) = true :=
    (any_participants_eq st d.id b).mpr hpb
  unfold MemStorage.searchDirect
  cases hf : ((st.getConversationsByUserId a).filter (fun c => !c.isGroup)).find?
      (fun c => (st.getParticipantsByConversationId c.id).any
        (fun p => p.userId == b)) with
  | some c => exact ⟨c, rfl⟩
  | none => exact absurd hpredd (List.find?_eq_none.mp hf d hmem2)

theorem directConvs_symm (st : MemStorage) (a b : Nat) :
    directConversationsBetween st a b = directConversationsBetween st b a := by
  unfold directConversationsBetween
  apply List.filter_congr
  intro c _
  apply decide_eq_decide.mpr
  unfold isDirectBetween
  tauto

theorem length_le_one_mem_eq {α : Type} {l : List α} {x y : α}
    (h : l.length ≤ 1) (hx : x ∈ l) (hy : y ∈ l) : x = y := by
  cases l with
  | nil => cases hx
  | cons e t =>
    cases t with
    | nil =>
      rw [List.mem_singleton] at hx hy
      rw [hx, hy]
    | cons f s =>
      exfalso
      simp [List.length_cons] at h

theorem length_eq_one_of_mem {α : Type} {l : List α} {x : α}
    (h : l.length ≤ 1) (hx : x ∈ l) : l.length = 1 := by
  cases l with
  | nil => cases hx
  | cons e t =>
    rw [List.length_cons] at h ⊢
    omega

theorem participates_created (st : MemStorage) (a b x cid : Nat) :
    participatesP (createdDirectState st a b) x cid
      ↔ participatesP st x cid ∨ (x = a ∧ cid = st.conversationId)
          ∨ (x = b ∧ cid = st.conversationId) := by
  unfold participatesP createdDirectState
  constructor
  · rintro ⟨p, hp, hpu, hpc⟩
    rcases List.mem_append.mp hp with hold | hnew
    · exact Or.inl ⟨p, hold, hpu, hpc⟩
    · rcases (by simpa using hnew :
          p = ({ id := st.participantId, userId := a,
                 conversationId := st.conversationId, isAdmin := false,
                 joinedAt := st.now } : Participant)
            ∨ p = ({ id := st.participantId + 1, userId := b,
                     conversationId := st.conversationId, isAdmin := false,
                     joinedAt := st.now } : Participant)) with rfl | rfl
      · exact Or.inr (Or.inl ⟨hpu.symm, hpc.symm⟩)
      · exact Or.inr (Or.inr ⟨hpu.symm, hpc.symm⟩)
  · rintro (⟨p, hp, hpu, hpc⟩ | ⟨rfl, rfl⟩ | ⟨rfl, rfl⟩)
    · exact ⟨p, List.mem_append.mpr (Or.inl hp), hpu, hpc⟩
    · exact ⟨{ id := st.participantId, userId := x,
               conversationId := st.conversationId,
               isAdmin := false, joinedAt := st.now },
        List.mem_append.mpr (Or.inr (by simp)), rfl, rfl⟩
    · exact ⟨{ id := st.participantId + 1, userId := x,
               conversationId := st.conversationId,
               isAdmin := false, joinedAt := st.now },
        List.mem_append.mpr (Or.inr (by simp)), rfl, rfl⟩

theorem direct_created (st : MemStorage) (a b : Nat)
    (hctr : ∀ c ∈ st.conversationsMap, c.id < st.conversationId)
    (hempty : directConversationsBetween st a b = []) :
    directConversationsBetween (createdDirectState st a b) a b
      = [createdDirectConv st] := by
  have hnone := List.filter_eq_nil_iff.mp hempty
  unfold directConversationsBetween
  rw [show (createdDirectState st a b).conversationsMap
      = st.conversationsMap ++ [createdDirectConv st] from rfl]
  rw [List.filter_append]
  have h1 : st.conversationsMap.filter
      (fun c => decide (isDirectBetween (createdDirectState st a b) a b c)) = [] := by
    rw [List.filter_eq_nil_iff]
    intro c hc hdec
    have hdir : isDirectBetween (createdDirectState st a b) a b c :=
      of_decide_eq_true hdec
    obtain ⟨hng, hpa, hpb⟩ := hdir
    have hlt := hctr c hc
    have hpa' : participatesP st a c.id := by
      rcases (participates_created st a b a c.id).mp hpa with h | ⟨_, hcid⟩ | ⟨_, hcid⟩
      · exact h
      · omega
      · omega
    have hpb' : participatesP st b c.id := by
      rcases (participates_created st a b b c.id).mp hpb with h | ⟨_, hcid⟩ | ⟨_, hcid⟩
      · exact h
      · omega
      · omega
    exact (hnone c hc) (decide_eq_true ⟨hng, hpa', hpb'⟩)
  rw [h1, List.nil_append]
  have h2 : decide (isDirectBetween (createdDirectState st a b) a b
      (createdDirectConv st)) = true := by
    apply decide_eq_true
    refine ⟨rfl, ?_, ?_⟩
    · exact (participates_created st a b a _).mpr (Or.inr (Or.inl ⟨rfl, rfl⟩))
    · exact (participates_created st a b b _).mpr (Or.inr (Or.inr ⟨rfl, rfl⟩))
  simp [List.filter, h2]

theorem nodup_created (st : MemStorage) (a b : Nat)
    (hids : (st.conversationsMap.map Conversation.id).Nodup)
    (hctr : ∀ c ∈ st.conversationsMap, c.id < st.conversationId) :
    ((createdDirectState st a b).conversationsMap.map Conversation.id).Nodup := by
  rw [show (createdDirectState st a b).conversationsMap
      = st.conversationsMap ++ [createdDirectConv st] from rfl]
  rw [List.map_append, List.nodup_append]
  refine ⟨hids, by simp, ?_⟩
  intro i hi hj
  obtain ⟨c, hc, rfl⟩ := List.mem_map.mp hi
  have hj' : c.id = st.conversationId := by simpa [createdDirectConv] using hj
  have := hctr c hc
  omega

theorem findOrCreate_some_red (st : MemStorage) (a b : Nat) (c : Conversation)
    (hs : st.searchDirect a b = some c) :
    st.findOrCreateOneToOneConversation a b = (st, c) := by
  unfold MemStorage.findOrCreateOneToOneConversation
  rw [hs]

theorem findOrCreate_none_red (st : MemStorage) (a b : Nat)
    (hs : st.searchDirect a b = none) :
    st.findOrCreateOneToOneConversation a b
      = (createdDirectState st a b, createdDirectConv st) := by
  unfold MemStorage.findOrCreateOneToOneConversation MemStorage.createConversation
    MemStorage.addParticipant createdDirectState createdDirectConv
  rw [hs]
  simp [List.append_assoc]

/-- C7: for every store state and conversation, the history query returns
exactly the messages belonging to that conversation (a permutation of the
filter of the message log) sorted by `sentAt` ascending, so a recipient
fetching history observes messages in store-assigned creation order. -/
theorem messages_query_exact_and_sorted (st : MemStorage) (conversationId : Nat) :
    (st.getMessagesByConversationId conversationId).Perm
        (st.messagesMap.filter (fun m => m.conversationId == conversationId))
    ∧ List.Sorted (fun a b : Message => a.sentAt ≤ b.sentAt)
        (st.getMessagesByConversationId conversationId) :=
  ⟨List.perm_insertionSort _ _, List.sorted_insertionSort _ _⟩

/-- C9: a user receives a fanned-out event exactly when it is a
participant other than the sender whose own registered connection is open;
whether any other recipient is absent, closed or unreachable has no
bearing on the delivery (membership depends only on the recipient's own
connection state), and the fan-out itself is a total function that never
raises. -/
theorem fanout_delivery_isolation (clients : ClientMap) (parts : List Participant)
    (sender : Nat) (ev : WSEvent) (u : Nat) :
    (u, ev) ∈ fanoutSends clients parts sender ev ↔
      ((∃ p ∈ parts, p.userId = u) ∧ u ≠ sender ∧ isOpenClient clients u = true) := by
  simp only [fanoutSends, List.mem_filterMap]
  constructor
  · rintro ⟨p, hp, hf⟩
    by_cases h1 : p.userId = sender
    · simp [h1] at hf
    · by_cases h2 : isOpenClient clients p.userId = true
      · simp only [h1, h2] at hf
        rw [if_neg (by simp [h1]), if_pos (by simp [h2])] at hf
        have hpe := Option.some.inj hf
        have hpu : p.userId = u := congrArg Prod.fst hpe
        exact ⟨⟨p, hp, hpu⟩, hpu ▸ h1, hpu ▸ h2⟩
      · rw [if_neg (by simp [h1]),
            if_neg (by simpa using h2)] at hf
        cases hf
  · rintro ⟨⟨p, hp, hpu⟩, hs, ho⟩
    refine ⟨p, hp, ?_⟩
    rw [if_neg (by simp [hpu ▸ hs]), if_pos (by rw [hpu]; exact ho), hpu]

/-- C4 counterexample: registering a second live connection for the same
identity does not leave both connections in the registry — the second
`clients.set(userId, ...)` overwrites the first, leaving a single entry
holding only the most recent socket. -/
theorem register_second_connection_cex :
    registerClient (registerClient [] 5 ⟨1, ReadyState.open⟩) 5 ⟨2, ReadyState.open⟩
        = [(5, ⟨2, ReadyState.open⟩)]
    ∧ mapGet (registerClient (registerClient [] 5 ⟨1, ReadyState.open⟩) 5
        ⟨2, ReadyState.open⟩) 5 = some ⟨2, ReadyState.open⟩
    ∧ ¬ (registerClient (registerClient [] 5 ⟨1, ReadyState.open⟩) 5
        ⟨2, ReadyState.open⟩).length = 2 := by decide

/-- C4 amended: registering a connection for an identity leaves the
registry with exactly one entry for that identity — the most recently
registered connection, which is the only one a subsequent fan-out can
reach — while entries of other identities are untouched; the registry
holds at most one concurrent connection per identity. -/
theorem register_keeps_single_connection (m : ClientMap) (u : Nat) (c : WSConn)
    (v : Nat) (h : (m.map Prod.fst).Nodup) :
    mapGet (registerClient m u c) u = some c
    ∧ ((registerClient m u c).filter (fun e => e.1 == u)).length = 1
    ∧ ((registerClient m u c).map Prod.fst).Nodup
    ∧ (v = u ∨ mapGet (registerClient m u c) v = mapGet m v) := by
  refine ⟨mapGet_mapSet_self m u c, filter_key_mapSet_length m u c h,
    nodup_keys_mapSet m u c h, ?_⟩
  by_cases hv : v = u
  · exact Or.inl hv
  · exact Or.inr (mapGet_mapSet_other m u v c hv)

/-- C4 amended witness: the amended statement evaluated on a registry
already holding a connection for identity 1. -/
theorem register_keeps_single_connection_witness :
    (([(1, (⟨7, ReadyState.open⟩ : WSConn))].map Prod.fst).Nodup)
    ∧ (mapGet (registerClient [(1, ⟨7, ReadyState.open⟩)] 1 ⟨8, ReadyState.open⟩) 1
          = some ⟨8, ReadyState.open⟩
      ∧ ((registerClient [(1, ⟨7, ReadyState.open⟩)] 1 ⟨8, ReadyState.open⟩).filter
          (fun e => e.1 == 1)).length = 1
      ∧ ((registerClient [(1, ⟨7, ReadyState.open⟩)] 1 ⟨8, ReadyState.open⟩).map
          Prod.fst).Nodup
      ∧ ((3 : Nat) = 1 ∨ mapGet (registerClient [(1, ⟨7, ReadyState.open⟩)] 1
          ⟨8, ReadyState.open⟩) 3 = mapGet [(1, ⟨7, ReadyState.open⟩)] 3)) :=
  ⟨by decide,
   register_keeps_single_connection [(1, ⟨7, ReadyState.open⟩)] 1 ⟨8, ReadyState.open⟩ 3
     (by decide)⟩

/-- C10: every `MessageStatus` record produced or modified by
`createMessageStatus` / `updateMessageStatus` — in both the in-memory and
the MongoDB implementation — has `readAt` non-null exactly when `isRead`
is true: marking read stamps the write time, marking unread resets it to
null, and any caller-supplied `readAt` is ignored. -/
theorem message_status_readAt_iff_isRead
    (sid did : Nat) (ins : InsertMessageStatus) (now : Nat)
    (st : MemStorage) (docs : List MessageStatus) (messageId userId : Nat) (isRead : Bool)
    (p1 : MemStorage × MessageStatus) (p2 : List MessageStatus × MessageStatus)
    (h1 : st.updateMessageStatus messageId userId isRead = some p1)
    (h2 : mongoUpdateMessageStatus docs messageId userId isRead now = some p2) :
    (MemStorage.mkMessageStatusRow sid ins now).readAt
        = (if ins.isRead then some now else none)
    ∧ ((MemStorage.mkMessageStatusRow sid ins now).readAt.isSome
        = (MemStorage.mkMessageStatusRow sid ins now).isRead)
    ∧ (mongoMessageStatusDoc did ins now).readAt
        = (if ins.isRead then some now else none)
    ∧ ((mongoMessageStatusDoc did ins now).readAt.isSome
        = (mongoMessageStatusDoc did ins now).isRead)
    ∧ p1.2.isRead = isRead
    ∧ p1.2.readAt = (if isRead then some st.now else none)
    ∧ p1.2.readAt.isSome = p1.2.isRead
    ∧ p1.2 ∈ p1.1.messageStatusMap
    ∧ p2.2.isRead = isRead
    ∧ p2.2.readAt = (if isRead then some now else none)
    ∧ p2.2.readAt.isSome = p2.2.isRead := by
  unfold MemStorage.updateMessageStatus at h1
  unfold mongoUpdateMessageStatus at h2
  cases hrow : st.getMessageStatus messageId userId with
  | none => rw [hrow] at h1; cases h1
  | some row0 =>
    rw [hrow] at h1
    cases hdoc : docs.find? (fun s => s.messageId == messageId && s.userId == userId) with
    | none => rw [hdoc] at h2; cases h2
    | some doc0 =>
      rw [hdoc] at h2
      have hp1 := (Option.some.inj h1).symm
      have hp2 := (Option.some.inj h2).symm
      subst hp1
      subst hp2
      have hmem0 : row0 ∈ st.messageStatusMap :=
        List.mem_of_find?_eq_some hrow
      refine ⟨rfl, ?_, rfl, ?_, rfl, rfl, ?_, ?_, rfl, rfl, ?_⟩
      · cases hir : ins.isRead <;> simp [MemStorage.mkMessageStatusRow, hir]
      · cases hir : ins.isRead <;> simp [mongoMessageStatusDoc, hir]
      · cases isRead <;> simp
      · exact List.mem_map.mpr ⟨row0, hmem0, by simp⟩
      · cases isRead <;> simp

/-- C10 witness: the status laws evaluated on a one-row store and a
caller-supplied `readAt` of `77` that the create path must ignore. -/
theorem message_status_readAt_iff_isRead_witness :
    (stW.updateMessageStatus 7 2 true
        = some ({ stW with messageStatusMap := [⟨1, 7, 2, true, some 0⟩] },
                ⟨1, 7, 2, true, some 0⟩))
    ∧ (mongoUpdateMessageStatus docsW 7 2 true 5
        = some ([⟨1, 7, 2, true, some 5⟩], ⟨1, 7, 2, true, some 5⟩))
    ∧ ((MemStorage.mkMessageStatusRow 3 ⟨9, 9, false, some 77⟩ 5).readAt
        = (if (false : Bool) then some 5 else none)
    ∧ ((MemStorage.mkMessageStatusRow 3 ⟨9, 9, false, some 77⟩ 5).readAt.isSome
        = (MemStorage.mkMessageStatusRow 3 ⟨9, 9, false, some 77⟩ 5).isRead)
    ∧ (mongoMessageStatusDoc 4 ⟨9, 9, false, some 77⟩ 5).readAt
        = (if (false : Bool) then some 5 else none)
    ∧ ((mongoMessageStatusDoc 4 ⟨9, 9, false, some 77⟩ 5).readAt.isSome
        = (mongoMessageStatusDoc 4 ⟨9, 9, false, some 77⟩ 5).isRead)
    ∧ ({ stW with messageStatusMap := [⟨1, 7, 2, true, some 0⟩] },
          (⟨1, 7, 2, true, some 0⟩ : MessageStatus)).2.isRead = true
    ∧ ({ stW with messageStatusMap := [⟨1, 7, 2, true, some 0⟩] },
          (⟨1, 7, 2, true, some 0⟩ : MessageStatus)).2.readAt
        = (if (true : Bool) then some stW.now else none)
    ∧ ({ stW with messageStatusMap := [⟨1, 7, 2, true, some 0⟩] },
          (⟨1, 7, 2, true, some 0⟩ : MessageStatus)).2.readAt.isSome
        = ({ stW with messageStatusMap := [⟨1, 7, 2, true, some 0⟩] },
          (⟨1, 7, 2, true, some 0⟩ : MessageStatus)).2.isRead
    ∧ ({ stW with messageStatusMap := [⟨1, 7, 2, true, some 0⟩] },
          (⟨1, 7, 2, true, some 0⟩ : MessageStatus)).2
        ∈ ({ stW with messageStatusMap := [⟨1, 7, 2, true, some 0⟩] },
          (⟨1, 7, 2, true, some 0⟩ : MessageStatus)).1.messageStatusMap
    ∧ (([⟨1, 7, 2, true, some 5⟩], (⟨1, 7, 2, true, some 5⟩ : MessageStatus)) :
          List MessageStatus × MessageStatus).2.isRead = true
    ∧ (([⟨1, 7, 2, true, some 5⟩], (⟨1, 7, 2, true, some 5⟩ : MessageStatus)) :
          List MessageStatus × MessageStatus).2.readAt
        = (if (true : Bool) then some 5 else none)
    ∧ (([⟨1, 7, 2, true, some 5⟩], (⟨1, 7, 2, true, some 5⟩ : MessageStatus)) :
          List MessageStatus × MessageStatus).2.readAt.isSome
        = (([⟨1, 7, 2, true, some 5⟩], (⟨1, 7, 2, true, some 5⟩ : MessageStatus)) :
          List MessageStatus × MessageStatus).2.isRead) :=
  ⟨by decide, by decide,
   message_status_readAt_iff_isRead 3 4 ⟨9, 9, false, some 77⟩ 5 stW docsW 7 2 true
     ({ stW with messageStatusMap := [⟨1, 7, 2, true, some 0⟩] }, ⟨1, 7, 2, true, some 0⟩)
     ([⟨1, 7, 2, true, some 5⟩], ⟨1, 7, 2, true, some 5⟩)
     (by decide) (by decide)⟩

/-- C2 theorem (code bug): on a chat-message event with neither `content`
nor `mediaUrl`, the websocket handler does not reject — it persists a
message with both fields null, creates status rows, fans out to the other
participant and sends no error event — while the HTTP `POST /api/messages`
handler rejects the identical input with a 400 and leaves the store
untouched. -/
theorem ws_empty_message_accepted_bug :
    ((wsChatMessageFlow true stA clientsA 1 1 none none none).1.messagesMap.length = 1
    ∧ (∃ m ∈ (wsChatMessageFlow true stA clientsA 1 1 none none none).1.messagesMap,
         m.content = none ∧ m.mediaUrl = none)
    ∧ (wsChatMessageFlow true stA clientsA 1 1 none none none).1.messageStatusMap.length = 2
    ∧ (wsChatMessageFlow true stA clientsA 1 1 none none none).2
        = [(2, WSEvent.newMessage (stA.newMessageOf ⟨1, 1, none, none, none⟩))])
    ∧ httpPostMessages stA clientsA (some 1) (some 1) none none none
        = { status := 400, st := stA, sends := [] } := by decide

/-- C8 counterexample: on a successfully persisted chat message from user
1 in conversation 1, the websocket handler pushes the new-message event to
user 2 only — the sender's connection receives no confirmation event at
all, contradicting the claim that a successful creation is acknowledged to
the sender. -/
theorem ws_sender_not_acknowledged_cex :
    (wsChatMessageFlow true stA clientsA 1 1 (some "hi") none none).2
        = [(2, WSEvent.newMessage (stA.newMessageOf ⟨1, 1, some "hi", none, none⟩))]
    ∧ ((wsChatMessageFlow true stA clientsA 1 1 (some "hi") none none).2.all
        (fun s => s.1 != 1)) = true := by decide

/-- C8 amended: when store message creation fails, the state is unchanged
(no message persisted), no new-message event is pushed to any participant,
and the sender's connection receives an error event; when creation
succeeds, the message is persisted and fanned out but the sender receives
no event at all from this handler (in particular no confirmation event) —
the sender learns about failures but not about successes. -/
theorem ws_chat_flow_sender_outcome (st : MemStorage) (clients : ClientMap)
    (sender conv : Nat) (c mu mt : Option String) :
    ((wsChatMessageFlow false st clients sender conv c mu mt).1 = st
    ∧ (wsChatMessageFlow false st clients sender conv c mu mt).2
        = [(sender, WSEvent.errorEvent "Invalid message format")])
    ∧ ((wsChatMessageFlow true st clients sender conv c mu mt).1.messagesMap
        = st.messagesMap ++ [st.newMessageOf ⟨conv, sender, c, mu, mt⟩]
    ∧ (wsChatMessageFlow true st clients sender conv c mu mt).2.filter
        (fun s => s.1 == sender) = []) := by
  refine ⟨⟨rfl, rfl⟩, ?_, ?_⟩
  · show (handleChatMessage st clients sender conv c mu mt).1.messagesMap = _
    simp only [handleChatMessage]
    rw [createStatuses_messagesMap]
    exact (createMessage_spec st _).2.1
  · show (handleChatMessage st clients sender conv c mu mt).2.filter _ = []
    simp only [handleChatMessage]
    exact fanout_filter_sender_nil _ _ _ _

/-- C6: on a read receipt from a reader distinct from the message's
author, the handler rewrites the `(messageId, reader)` status row with the
received `isRead` (stamping or clearing `readAt`), and the resulting
status-update event goes to the author's connection alone — exactly one
send when the author's socket is registered and open, none otherwise, and
never a send to any other participant. -/
theorem read_receipt_notifies_author_only
    (st : MemStorage) (clients : ClientMap) (reader messageId : Nat) (isRead : Bool)
    (msg : Message)
    (hmsg : st.getMessage messageId = some msg)
    (hne : msg.userId ≠ reader)
    (hrow : (st.getMessageStatus messageId reader).isSome = true)
    (hids : (st.messageStatusMap.map MessageStatus.id).Nodup) :
    ((handleMessageStatus st clients reader messageId isRead).1.getMessageStatus
        messageId reader).map (fun row => (row.isRead, row.readAt))
      = some (isRead, if isRead then some st.now else none)
    ∧ (handleMessageStatus st clients reader messageId isRead).2
      = (if isOpenClient clients msg.userId then
          [(msg.userId, WSEvent.statusUpdate messageId reader isRead)] else []) := by
  obtain ⟨row0, hrow0⟩ := Option.isSome_iff_exists.mp hrow
  set updated : MessageStatus :=
    { row0 with isRead := isRead, readAt := if isRead then some st.now else none }
    with hupdated
  set newMap : List MessageStatus :=
    st.messageStatusMap.map (fun s => if s.id == row0.id then updated else s)
    with hnewMap
  have hupd : st.updateMessageStatus messageId reader isRead
      = some ({ st with messageStatusMap := newMap }, updated) := by
    unfold MemStorage.updateMessageStatus
    rw [hrow0]
  have hmsg1 : MemStorage.getMessage { st with messageStatusMap := newMap } messageId
      = some msg := hmsg
  have hbr : (msg.userId != reader) = true := by simpa using hne
  have hfind0 : st.messageStatusMap.find?
      (fun s => s.messageId == messageId && s.userId == reader) = some row0 := hrow0
  have hp0 := List.find?_some hfind0
  have hfound : MemStorage.getMessageStatus { st with messageStatusMap := newMap }
      messageId reader = some updated := by
    unfold MemStorage.getMessageStatus
    exact find?_map_replace st.messageStatusMap
      (fun s => s.messageId == messageId && s.userId == reader)
      row0 updated hfind0 hids hp0 rfl
  refine ⟨?_, ?_⟩ <;>
    simp only [handleMessageStatus, hupd, hmsg1, hbr] <;>
    by_cases ho : isOpenClient clients msg.userId = true <;>
    simp [ho, hfound, hupdated]

/-- C6 witness: user 2 reads message 1 (authored by user 1) while both
users' sockets are open. -/
theorem read_receipt_notifies_author_only_witness :
    (stC6.getMessage 1 = some msgC6 ∧ msgC6.userId ≠ 2
      ∧ (stC6.getMessageStatus 1 2).isSome = true
      ∧ (stC6.messageStatusMap.map MessageStatus.id).Nodup)
    ∧ (((handleMessageStatus stC6 clientsA 2 1 true).1.getMessageStatus 1 2).map
          (fun row => (row.isRead, row.readAt))
        = some (true, if (true : Bool) then some stC6.now else none)
      ∧ (handleMessageStatus stC6 clientsA 2 1 true).2
        = (if isOpenClient clientsA msgC6.userId then
            [(msgC6.userId, WSEvent.statusUpdate 1 2 true)] else [])) :=
  ⟨⟨by decide, by decide, by decide, by decide⟩,
   read_receipt_notifies_author_only stC6 clientsA 2 1 true msgC6
     (by decide) (by decide) (by decide) (by decide)⟩

/-- C1: when an authenticated participant sends a chat message into a
conversation whose participant rows carry pairwise-distinct identities and
whose new message id is fresh, the handler writes exactly one status row
for each participant and none for anyone else, exactly one of those rows
is read-marked, a row is read-marked exactly when it is the sender's own,
the emitted sends are precisely the fan-out of the persisted message over
the participants excluding the sender, and an identity receives the
new-message event iff it is a non-sender participant whose registered
connection is open. -/
theorem chat_message_fanout_complete
    (st : MemStorage) (clients : ClientMap) (sender conv : Nat)
    (content mediaUrl mediaType : Option String) (u : Nat)
    (hnodup : ((st.getParticipantsByConversationId conv).map Participant.userId).Nodup)
    (hsender : sender ∈ (st.getParticipantsByConversationId conv).map Participant.userId)
    (hfresh : ∀ s ∈ st.messageStatusMap, s.messageId ≠ st.messageId) :
    (((handleChatMessage st clients sender conv content mediaUrl
          mediaType).1.messageStatusMap.filter
        (fun s => s.messageId == st.messageId && s.userId == u)).length
      = if u ∈ (st.getParticipantsByConversationId conv).map Participant.userId
        then 1 else 0)
    ∧ (((handleChatMessage st clients sender conv content mediaUrl
          mediaType).1.messageStatusMap.filter
        (fun s => s.messageId == st.messageId && s.isRead)).length = 1)
    ∧ (((handleChatMessage st clients sender conv content mediaUrl
          mediaType).1.messageStatusMap.filter
        (fun s => s.messageId == st.messageId && s.userId == u)).all
        (fun s => s.isRead == (s.userId == sender)) = true)
    ∧ ((handleChatMessage st clients sender conv content mediaUrl mediaType).2
      = fanoutSends clients (st.getParticipantsByConversationId conv) sender
          (WSEvent.newMessage
            (st.newMessageOf ⟨conv, sender, content, mediaUrl, mediaType⟩)))
    ∧ ((u, WSEvent.newMessage
          (st.newMessageOf ⟨conv, sender, content, mediaUrl, mediaType⟩))
        ∈ (handleChatMessage st clients sender conv content mediaUrl mediaType).2
      ↔ u ∈ (st.getParticipantsByConversationId conv).map Participant.userId
          ∧ u ≠ sender ∧ isOpenClient clients u = true) := by
  obtain ⟨hmsg2, hmm, hpm, hsm, hsi, hnow⟩ :=
    createMessage_spec st ⟨conv, sender, content, mediaUrl, mediaType⟩
  have hparts : (st.createMessage
        ⟨conv, sender, content, mediaUrl, mediaType⟩).1.getParticipantsByConversationId
        conv = st.getParticipantsByConversationId conv := by
    unfold MemStorage.getParticipantsByConversationId
    rw [hpm]
  have hstate : (handleChatMessage st clients sender conv content mediaUrl
        mediaType).1.messageStatusMap
      = st.messageStatusMap ++ statusRows st.messageStatusId st.now st.messageId sender
          (st.getParticipantsByConversationId conv) := by
    simp only [handleChatMessage]
    rw [createStatuses_statusMap, hparts, hsm, hsi, hnow, hmsg2]
    rfl
  have hsends : (handleChatMessage st clients sender conv content mediaUrl mediaType).2
      = fanoutSends clients (st.getParticipantsByConversationId conv) sender
          (WSEvent.newMessage
            (st.newMessageOf ⟨conv, sender, content, mediaUrl, mediaType⟩)) := by
    simp only [handleChatMessage]
    rw [hparts, hmsg2]
  refine ⟨?_, ?_, ?_, hsends, ?_⟩
  · rw [hstate, List.filter_append,
      filter_and_fresh_nil st.messageStatusMap st.messageId _ hfresh,
      List.nil_append, statusRows_filter_user]
    by_cases hu : u ∈ (st.getParticipantsByConversationId conv).map Participant.userId
    · rw [if_pos hu]
      have hle := List.nodup_iff_count_le_one.mp hnodup u
      have hne0 : ((st.getParticipantsByConversationId conv).map
          Participant.userId).count u ≠ 0 :=
        fun hz => (List.count_eq_zero.mp hz) hu
      omega
    · rw [if_neg hu, List.count_eq_zero.mpr hu]
  · rw [hstate, List.filter_append,
      filter_and_fresh_nil st.messageStatusMap st.messageId _ hfresh,
      List.nil_append, statusRows_isRead_eq_sender, statusRows_filter_user]
    have hle := List.nodup_iff_count_le_one.mp hnodup sender
    have hne0 : ((st.getParticipantsByConversationId conv).map
        Participant.userId).count sender ≠ 0 :=
      fun hz => (List.count_eq_zero.mp hz) hsender
    omega
  · rw [hstate, List.filter_append,
      filter_and_fresh_nil st.messageStatusMap st.messageId _ hfresh,
      List.nil_append, List.all_eq_true]
    intro s hs
    have hmem := (List.mem_filter.mp hs).1
    rw [(statusRows_props _ _ _ _ _ s hmem).2]
    exact beq_self_eq_true _
  · rw [hsends, mem_fanoutSends]
    constructor
    · rintro ⟨hex, hs, ho⟩
      exact ⟨List.mem_map.mpr hex, hs, ho⟩
    · rintro ⟨hmm', hs, ho⟩
      exact ⟨List.mem_map.mp hmm', hs, ho⟩

/-- C1 witness: user 1 sends "hi" into the two-party conversation 1 of
store `stA` with both users connected; evaluated at recipient 2. -/
theorem chat_message_fanout_complete_witness :
    (((stA.getParticipantsByConversationId 1).map Participant.userId).Nodup
      ∧ 1 ∈ (stA.getParticipantsByConversationId 1).map Participant.userId
      ∧ ∀ s ∈ stA.messageStatusMap, s.messageId ≠ stA.messageId)
    ∧ ((((handleChatMessage stA clientsA 1 1 (some "hi") none
            none).1.messageStatusMap.filter
          (fun s => s.messageId == stA.messageId && s.userId == 2)).length
        = if 2 ∈ (stA.getParticipantsByConversationId 1).map Participant.userId
          then 1 else 0)
      ∧ ((((handleChatMessage stA clientsA 1 1 (some "hi") none
            none).1.messageStatusMap.filter
          (fun s => s.messageId == stA.messageId && s.isRead)).length = 1))
      ∧ ((((handleChatMessage stA clientsA 1 1 (some "hi") none
            none).1.messageStatusMap.filter
          (fun s => s.messageId == stA.messageId && s.userId == 2)).all
          (fun s => s.isRead == (s.userId == 1)) = true))
      ∧ ((handleChatMessage stA clientsA 1 1 (some "hi") none none).2
        = fanoutSends clientsA (stA.getParticipantsByConversationId 1) 1
            (WSEvent.newMessage (stA.newMessageOf ⟨1, 1, some "hi", none, none⟩)))
      ∧ ((2, WSEvent.newMessage (stA.newMessageOf ⟨1, 1, some "hi", none, none⟩))
          ∈ (handleChatMessage stA clientsA 1 1 (some "hi") none none).2
        ↔ 2 ∈ (stA.getParticipantsByConversationId 1).map Participant.userId
            ∧ (2 : Nat) ≠ 1 ∧ isOpenClient clientsA 2 = true)) :=
  ⟨⟨by decide, by decide, by decide⟩,
   chat_message_fanout_complete stA clientsA 1 1 (some "hi") none none 2
     (by decide) (by decide) (by decide)⟩

/-- C5 counterexample: user 2 shares the two conversations 1 and 2 with
user 1 (store `stB`); when user 1 disconnects, the offline broadcast loop
runs once per conversation without deduplication, so user 2's connection
receives the user-status-change event twice — not exactly once as the
claim requires. -/
theorem presence_duplicate_broadcast_cex :
    ((handleClose stB clientsA (some 1) 99).2.2.filter (fun s => s.1 == 2)).length = 2
    ∧ ¬ (((handleClose stB clientsA (some 1) 99).2.2.filter
          (fun s => s.1 == 2)).length = 1) := by decide

/-- C5 amended: assuming the presence invariant (a stored user is flagged
online iff the registry holds a connection for it), closing an
authenticated connection marks that identity offline with the close
timestamp, removes it from the registry, and emits user-status-change
events to exactly the identities that share at least one conversation with
it and have a registered open connection — never to the identity itself —
but once per shared conversation rather than once per identity (the
broadcast is not deduplicated); the presence invariant is preserved both
by this close transition and by connection registration. -/
theorem presence_close_transition
    (st : MemStorage) (clients : ClientMap) (u now x v : Nat) (ws : WSConn)
    (hinv : presenceInv st clients = true) :
    ((handleClose st clients (some u) now).1.usersMap.all
        (fun y => y.id != u || (!y.isOnline && y.lastSeen == some now))) = true
    ∧ mapGet (handleClose st clients (some u) now).2.1 u = none
    ∧ ((handleClose st clients (some u) now).2.2.filter (fun s => s.1 == u)) = []
    ∧ (((handleClose st clients (some u) now).2.2.any (fun s => s.1 == x))
        = ((x != u) && isOpenClient (handleClose st clients (some u) now).2.1 x
            && (((handleClose st clients (some u) now).1.getConversationsByUserId
                  u).any
                  (fun conv => decide (participatesP
                    (handleClose st clients (some u) now).1 x conv.id)))))
    ∧ presenceInv (handleClose st clients (some u) now).1
        (handleClose st clients (some u) now).2.1 = true
    ∧ presenceInv (handleAuthUser st clients v ws).1
        (handleAuthUser st clients v ws).2.1 = true := by
  refine ⟨setOffline_flags st u now, mapGet_mapDelete_self clients u, ?_, ?_,
    presenceInv_close st clients u now hinv, presenceInv_register st clients v ws hinv⟩
  · rw [List.filter_eq_nil_iff]
    intro s hs hsx
    exact (broadcast_elt _ _ _ _ _ s hs).1 (by simpa using hsx)
  · exact broadcast_any _ _ _ _ _ _

/-- C5 amended witness: the amended statement evaluated on store `stA`
(users 1, 2 online in direct conversation 1) with user 1 closing,
recipient 2, and a fresh registration of user 3. -/
theorem presence_close_transition_witness :
    (presenceInv stA clientsA = true)
    ∧ (((handleClose stA clientsA (some 1) 99).1.usersMap.all
          (fun y => y.id != 1 || (!y.isOnline && y.lastSeen == some 99))) = true
      ∧ mapGet (handleClose stA clientsA (some 1) 99).2.1 1 = none
      ∧ ((handleClose stA clientsA (some 1) 99).2.2.filter (fun s => s.1 == 1)) = []
      ∧ (((handleClose stA clientsA (some 1) 99).2.2.any (fun s => s.1 == 2))
          = (((2 : Nat) != 1) && isOpenClient (handleClose stA clientsA (some 1) 99).2.1 2
              && (((handleClose stA clientsA (some 1) 99).1.getConversationsByUserId
                    1).any
                    (fun conv => decide (participatesP
                      (handleClose stA clientsA (some 1) 99).1 2 conv.id)))))
      ∧ presenceInv (handleClose stA clientsA (some 1) 99).1
          (handleClose stA clientsA (some 1) 99).2.1 = true
      ∧ presenceInv (handleAuthUser stA clientsA 3 ⟨9, ReadyState.open⟩).1
          (handleAuthUser stA clientsA 3 ⟨9, ReadyState.open⟩).2.1 = true) :=
  ⟨by decide,
   presence_close_transition stA clientsA 1 99 2 3 ⟨9, ReadyState.open⟩ (by decide)⟩

/-- C3: for distinct identities `a` and `b`, in a well-formed store
(conversation ids distinct and below the fresh-id counter) holding at most
one direct conversation between the pair, calling
find-or-create-direct-conversation twice — as `(a,b)` then `(a,b)`, or as
`(a,b)` then `(b,a)` — returns the same conversation id both times, the
second call leaves the store unchanged, and afterwards exactly one direct
conversation between the pair exists in the store. -/
theorem find_or_create_direct_idempotent
    (st : MemStorage) (a b : Nat) (hab : a ≠ b)
    (hids : (st.conversationsMap.map Conversation.id).Nodup)
    (hctr : ∀ c ∈ st.conversationsMap, c.id < st.conversationId)
    (huniq : (directConversationsBetween st a b).length ≤ 1) :
    ((st.findOrCreateOneToOneConversation a b).1.findOrCreateOneToOneConversation
        a b).2.id = (st.findOrCreateOneToOneConversation a b).2.id
    ∧ ((st.findOrCreateOneToOneConversation a b).1.findOrCreateOneToOneConversation
        b a).2.id = (st.findOrCreateOneToOneConversation a b).2.id
    ∧ ((st.findOrCreateOneToOneConversation a b).1.findOrCreateOneToOneConversation
        a b).1 = (st.findOrCreateOneToOneConversation a b).1
    ∧ ((st.findOrCreateOneToOneConversation a b).1.findOrCreateOneToOneConversation
        b a).1 = (st.findOrCreateOneToOneConversation a b).1
    ∧ (directConversationsBetween
        (st.findOrCreateOneToOneConversation a b).1 a b).length = 1 := by
  cases hs : st.searchDirect a b with
  | some c =>
    have hc := searchDirect_some st a b c hs
    have hr1 := findOrCreate_some_red st a b c hs
    have hcsym : c ∈ directConversationsBetween st b a := by
      rw [← directConvs_symm]
      exact hc
    obtain ⟨c2, hs2⟩ := searchDirect_exists st b a c hids hcsym
    have hc2 : c2 ∈ directConversationsBetween st a b := by
      rw [directConvs_symm]
      exact searchDirect_some st b a c2 hs2
    have hceq : c2 = c := length_le_one_mem_eq huniq hc2 hc
    have hr3 := findOrCreate_some_red st b a c2 hs2
    simp only [hr1, hr3]
    simp [hceq, length_eq_one_of_mem huniq hc]
  | none =>
    have hempty : directConversationsBetween st a b = [] := by
      cases hEmpty : directConversationsBetween st a b with
      | nil => rfl
      | cons d t =>
        exfalso
        have hd : d ∈ directConversationsBetween st a b := by
          rw [hEmpty]
          exact List.mem_cons_self d t
        obtain ⟨c, hc⟩ := searchDirect_exists st a b d hids hd
        rw [hs] at hc
        cases hc
    have hr1 := findOrCreate_none_red st a b hs
    have hd3 := direct_created st a b hctr hempty
    have hids3 := nodup_created st a b hids hctr
    have hn3 : createdDirectConv st
        ∈ directConversationsBetween (createdDirectState st a b) a b := by
      rw [hd3]
      exact List.mem_singleton.mpr rfl
    obtain ⟨c2, hs2⟩ := searchDirect_exists (createdDirectState st a b) a b
      (createdDirectConv st) hids3 hn3
    have hceq2 : c2 = createdDirectConv st := by
      have hc2 := searchDirect_some (createdDirectState st a b) a b c2 hs2
      rw [hd3] at hc2
      exact List.mem_singleton.mp hc2
    have hr2 := findOrCreate_some_red (createdDirectState st a b) a b c2 hs2
    have hn3' : createdDirectConv st
        ∈ directConversationsBetween (createdDirectState st a b) b a := by
      rw [← directConvs_symm]
      exact hn3
    obtain ⟨c3, hs3⟩ := searchDirect_exists (createdDirectState st a b) b a
      (createdDirectConv st) hids3 hn3'
    have hceq3 : c3 = createdDirectConv st := by
      have hc3 := searchDirect_some (createdDirectState st a b) b a c3 hs3
      have hc3' : c3 ∈ directConversationsBetween (createdDirectState st a b) a b := by
        rw [directConvs_symm]
        exact hc3
      rw [hd3] at hc3'
      exact List.mem_singleton.mp hc3'
    have hr3 := findOrCreate_some_red (createdDirectState st a b) b a c3 hs3
    simp only [hr1, hr2, hr3]
    simp [hceq2, hceq3, hd3]

/-- C3 witness: the idempotence statement evaluated on the empty store for
the pair of identities 1 and 2. -/
theorem find_or_create_direct_idempotent_witness :
    ((1 : Nat) ≠ 2
      ∧ ((stEmpty.conversationsMap.map Conversation.id).Nodup)
      ∧ (∀ c ∈ stEmpty.conversationsMap, c.id < stEmpty.conversationId)
      ∧ (directConversationsBetween stEmpty 1 2).length ≤ 1)
    ∧ (((stEmpty.findOrCreateOneToOneConversation
          1 2).1.findOrCreateOneToOneConversation 1 2).2.id
        = (stEmpty.findOrCreateOneToOneConversation 1 2).2.id
      ∧ ((stEmpty.findOrCreateOneToOneConversation
          1 2).1.findOrCreateOneToOneConversation 2 1).2.id
        = (stEmpty.findOrCreateOneToOneConversation 1 2).2.id
      ∧ ((stEmpty.findOrCreateOneToOneConversation
          1 2).1.findOrCreateOneToOneConversation 1 2).1
        = (stEmpty.findOrCreateOneToOneConversation 1 2).1
      ∧ ((stEmpty.findOrCreateOneToOneConversation
          1 2).1.findOrCreateOneToOneConversation 2 1).1
        = (stEmpty.findOrCreateOneToOneConversation 1 2).1
      ∧ (directConversationsBetween
          (stEmpty.findOrCreateOneToOneConversation 1 2).1 1 2).length = 1) :=
  ⟨⟨by decide, by decide, by decide, by decide⟩,
   find_or_create_direct_idempotent stEmpty 1 2 (by decide) (by decide) (by decide)
     (by decide)⟩

end TeleChat
